import Mathlib

/-!
# VRODracoMeshLoader: a shallow embedding

The development follows `ViroRenderer/VRODracoMeshLoader.cpp`: the two member
functions `decodeDracoData` and `processAttribute` are transcribed statement by
statement.

Modelling conventions.

* The Draco library is outside the repository.  A decoded `draco::Mesh` is a
  record of what its accessors return; the decoder itself and
  `PointAttribute::ConvertValue<float>` are functions supplied from outside
  (an argument of `decodeDracoData`, a field of `PointAttribute`).
* `std::map<std::string, int>` is its in-order entry sequence together with the
  container's invariant (keys strictly ascending).
* The out-parameters `sourcesOut` and `elementsOut` are passed in and returned.
* A byte buffer that the code reads and writes only through an `int *` or a
  `float *` is a list of 4-byte cells plus the length given to its constructor.
  A cell that was never written is `none`; a store outside the buffer is not
  recorded.
* Machine integers are integers with the conversions written out: `int` is 32
  bits and wraps (`toInt32`, also for the products the source takes in `int`),
  `uint32_t` is `toUInt32`, `size_t` is 64 bits (`toSizeT`).  The accessors of
  Draco return `uint32_t` counts and indices and an 8-bit component count.
* `pwarn` only logs and is omitted.
-/

namespace VRODracoMeshLoader

/-! ## Engine-side types (constructor arguments kept in order) -/

/-- Modelled from the spec: the enumeration `VROGeometrySourceSemantic` is
declared in `VROGeometrySource.h`, which is not among the sources; these are the
seven values `decodeDracoData` names (lines 66 to 81). -/
inductive VROGeometrySourceSemantic where
  | Vertex
  | Normal
  | Color
  | Texcoord
  | BoneWeights
  | BoneIndices
  | Invalid
deriving DecidableEq, Repr

/-- Modelled from the spec: the enumeration `VROGeometryPrimitiveType` is
declared in `VROGeometryElement.h`, which is not among the sources; the glossary
speaks of primitives (triangles), and `Triangle` is the value passed at line
113. -/
inductive VROGeometryPrimitiveType where
  | Triangle
  | TriangleStrip
  | Line
  | Point
deriving DecidableEq, Repr

/-- A 32-bit float, kept as the bit pattern of its object representation. -/
structure Float32 where
  bits : Nat
deriving DecidableEq, Repr

/-- Modelled from the spec: the class `VROData` is declared outside the sources;
it is the buffer behind a geometry source or element, kept as the byte length
passed to its constructor and its content as 4-byte cells. -/
structure VROData (α : Type) where
  dataLength : Int
  cells : List (Option α)
deriving DecidableEq, Repr

/-- Modelled from the spec: the class `VROGeometrySource` (the glossary's
per-attribute vertex data buffer) is declared outside the sources; it is kept as
the record of the constructor arguments of lines 163 to 166, in their order. -/
structure VROGeometrySource where
  data : VROData Float32
  semantic : VROGeometrySourceSemantic
  vertexCount : Int
  floatComponents : Bool
  componentsPerVertex : Int
  bytesPerComponent : Int
  dataOffset : Int
  dataStride : Int
deriving DecidableEq, Repr

/-- Modelled from the spec: the class `VROGeometryElement` (the glossary's index
buffer describing how vertices connect into primitives) is declared outside the
sources; it is kept as the record of the constructor arguments of lines 111 to
114, in their order. -/
structure VROGeometryElement where
  data : VROData Int
  primitiveType : VROGeometryPrimitiveType
  primitiveCount : Int
  bytesPerIndex : Int
deriving DecidableEq, Repr

/-! ## Draco-side types -/

/-- The component types of `draco::DataType` (Draco library). -/
inductive DataType where
  | DT_INVALID
  | DT_INT8
  | DT_UINT8
  | DT_INT16
  | DT_UINT16
  | DT_INT32
  | DT_UINT32
  | DT_INT64
  | DT_UINT64
  | DT_FLOAT32
  | DT_FLOAT64
  | DT_BOOL
deriving DecidableEq, Repr

/-- What one call `ConvertValue<float>(att_id, n, out_val)` did: the flag it
returned and the floats it stored at `out_val[0]`, `out_val[1]`, ... -/
structure ConvertResult where
  ok : Bool
  written : List Float32
deriving DecidableEq, Repr

/-- A `draco::PointAttribute` (Draco library) through its accessors.  The
component count is an 8-bit value; `indices_map` is the explicit point-to-value
table used when `identity_mapping` is off; `ConvertValue att_id n` is the
conversion of the value stored at attribute value index `att_id` to `n`
floats. -/
structure PointAttribute where
  unique_id : Nat
  num_components : Fin 256
  data_type : DataType
  identity_mapping : Bool
  indices_map : List Nat
  ConvertValue : Nat → Nat → ConvertResult

/-- The Draco accessor `PointAttribute::mapped_index`: the attribute value index
that the attribute associates with a point, the point index itself under the
identity mapping and the entry of the explicit table otherwise. -/
def PointAttribute.mapped_index (a : PointAttribute) (point_index : Nat) : Nat :=
  if a.identity_mapping then point_index else a.indices_map.getD point_index 0

/-- A `draco::Mesh::Face`: the point indices of its three corners. -/
structure Face where
  c0 : Nat
  c1 : Nat
  c2 : Nat
deriving DecidableEq, Repr

/-- The accessor `face[k]`. -/
def Face.get (f : Face) (k : Fin 3) : Nat :=
  match k with
  | 0 => f.c0
  | 1 => f.c1
  | 2 => f.c2

/-- A decoded `draco::Mesh` (Draco library) through its accessors. -/
structure Mesh where
  num_points : Nat
  faces : List Face
  attributes : List PointAttribute

/-- The accessor `Mesh::num_faces`. -/
def Mesh.num_faces (m : Mesh) : Nat := m.faces.length

/-- The accessor `Mesh::face`. -/
def Mesh.face (m : Mesh) (i : Nat) : Face := m.faces.getD i ⟨0, 0, 0⟩

/-- The accessor `PointCloud::GetAttributeByUniqueId`: the first attribute with
the given unique id, `none` for the null pointer. -/
def Mesh.GetAttributeByUniqueId (m : Mesh) (unique_id : Nat) : Option PointAttribute :=
  m.attributes.find? (fun a => a.unique_id == unique_id)

/-- The comparison `std::less<std::string>` of the map: lexicographic on the
character sequences (for UTF-8 text the byte-wise order of `std::string`). -/
def stringLess (a b : String) : Prop := a.data < b.data

instance stringLessDecidable (a b : String) : Decidable (stringLess a b) := by
  unfold stringLess
  infer_instance

/-- The `std::map<std::string, int>` argument: its entries in iteration order,
which the container keeps strictly ascending by key. -/
structure AttributeTypeMap where
  entries : List (String × Int)
  ascending : entries.Pairwise (fun a b => stringLess a.1 b.1)

/-! ## The loader -/

/-- The value of `sizeof(float)`. -/
def sizeofFloat : Nat := 4

/-- The value of `sizeof(int)`. -/
def sizeofInt : Nat := 4

/-- The value of an integer as a C++ `int`: 32 bits, two's complement. -/
def toInt32 (x : Int) : Int := (x + 2147483648) % 4294967296 - 2147483648

/-- The value of an integer as a `uint32_t` (the parameter of
`GetAttributeByUniqueId`, the right-hand side of `i < numFaces`, the subscript
`i.value() * 3 + k`). -/
def toUInt32 (x : Int) : Nat := (x % 4294967296).toNat

/-- The value of an integer as a `size_t` of 64 bits. -/
def toSizeT (x : Int) : Nat := (x % 18446744073709551616).toNat

/-- The product of two `int` values, as an `int`. -/
def mulInt32 (a b : Int) : Int := toInt32 (a * b)

/-- A fresh buffer for a requested number of bytes, nothing written yet (the
`VROByteBuffer` of line 92 and the `VROData` of line 147); a negative request
gives a buffer without cells. -/
def VROData.alloc (α : Type) (dataLength : Int) : VROData α :=
  { dataLength := dataLength, cells := List.replicate (dataLength.toNat / 4) none }

/-- Stores `vals[0]`, `vals[1]`, ... at cells `pos`, `pos + 1`, ... -/
def storeFrom {α : Type} : List (Option α) → Nat → List α → List (Option α)
  | buf, _, [] => buf
  | buf, pos, v :: vs => storeFrom (buf.set pos (some v)) (pos + 1) vs

/-- The `if`/`else if` chain of `decodeDracoData` (lines 66 to 79). -/
def semanticOf (semanticName : String) : VROGeometrySourceSemantic :=
  if semanticName == "POSITION" then VROGeometrySourceSemantic.Vertex
  else if semanticName == "NORMAL" then VROGeometrySourceSemantic.Normal
  else if semanticName == "TEXCOORD_0" then VROGeometrySourceSemantic.Texcoord
  else if semanticName == "COLOR_0" then VROGeometrySourceSemantic.Color
  else if semanticName == "JOINTS_0" then VROGeometrySourceSemantic.BoneIndices
  else if semanticName == "WEIGHTS_0" then VROGeometrySourceSemantic.BoneWeights
  else VROGeometrySourceSemantic.Invalid

/-- One iteration of the conversion loop of `processAttribute` (lines 152 to
160), for the `int` counter `i`: `floatData` is the byte offset
`i * componentCount * bytesPerComponent` taken in `int`, and `ConvertValue`
stores at most `componentCount` floats from there on. -/
def convertStep (att : PointAttribute) (componentCount bytesPerComponent : Int)
    (data : List (Option Float32)) (i : Nat) : List (Option Float32) :=
  let valIndex := toUInt32 i
  let floatData := mulInt32 (mulInt32 i componentCount) bytesPerComponent
  let r := att.ConvertValue valIndex componentCount.toNat
  if 0 ≤ floatData then
    storeFrom data (floatData.toNat / sizeofFloat) (r.written.take componentCount.toNat)
  else data

/-- The member function `VRODracoMeshLoader::processAttribute`. -/
def processAttribute (mesh : Mesh) (att : PointAttribute)
    (semantic : VROGeometrySourceSemantic) (sources : List VROGeometrySource) :
    List VROGeometrySource :=
  let componentCount : Int := att.num_components.val
  let vertexCount : Int := toInt32 mesh.num_points
  let isFloat := att.data_type == DataType.DT_FLOAT32
  let bytesPerComponent : Int := if isFloat then sizeofFloat else sizeofFloat
  let vrod : VROData Float32 :=
    VROData.alloc Float32 (mulInt32 (mulInt32 vertexCount componentCount) bytesPerComponent)
  let data := (List.range vertexCount.toNat).foldl
    (convertStep att componentCount bytesPerComponent) vrod.cells
  let source : VROGeometrySource :=
    { data := { vrod with cells := data }
      semantic := semantic
      vertexCount := vertexCount
      floatComponents := true
      componentsPerVertex := componentCount
      bytesPerComponent := bytesPerComponent
      dataOffset := 0
      dataStride := mulInt32 componentCount bytesPerComponent }
  sources ++ [source]

/-- One iteration of the attribute loop of `decodeDracoData` (lines 53 to 84). -/
def attributeStep (mesh : Mesh) (sourcesOut : List VROGeometrySource)
    (attributeInfo : String × Int) : List VROGeometrySource :=
  let semanticName := attributeInfo.1
  let uniqueId := attributeInfo.2
  match mesh.GetAttributeByUniqueId (toUInt32 uniqueId) with
  | none => sourcesOut
  | some att =>
    let semantic := semanticOf semanticName
    if semantic != VROGeometrySourceSemantic.Invalid then
      processAttribute mesh att semantic sourcesOut
    else sourcesOut

/-- One iteration of the index loop of `decodeDracoData` (lines 95 to 100), for
the `uint32_t` face index `i`: the subscripts are taken in `uint32_t`, the
`uint32_t` point indices are stored as `int`. -/
def indexStep (mesh : Mesh) (indices : List (Option Int)) (i : Nat) : List (Option Int) :=
  let face := mesh.face i
  ((indices.set (toUInt32 (i * 3 + 0)) (some (toInt32 (face.get 0)))).set
    (toUInt32 (i * 3 + 1)) (some (toInt32 (face.get 1)))).set
    (toUInt32 (i * 3 + 2)) (some (toInt32 (face.get 2)))

/-- The block "Process Indices" of `decodeDracoData` (lines 86 to 114): the
element built from the faces of the decoded mesh.  The byte count
`indicesCount * sizeof(int)` is taken in `size_t`, and the loop condition
`i < numFaces` compares in `uint32_t`. -/
def indexElement (mesh : Mesh) : VROGeometryElement :=
  let numFaces : Int := toInt32 mesh.num_faces
  let indicesCount : Int := mulInt32 numFaces 3
  let byteCount : Nat := toSizeT ((toSizeT indicesCount * sizeofInt : Nat) : Int)
  let indexData : VROData Int := VROData.alloc Int byteCount
  let indices := (List.range (toUInt32 numFaces)).foldl (indexStep mesh) indexData.cells
  let indexVROData : VROData Int := { dataLength := byteCount, cells := indices }
  { data := indexVROData
    primitiveType := VROGeometryPrimitiveType.Triangle
    primitiveCount := Int.tdiv indicesCount 3
    bytesPerIndex := sizeofInt }

/-- The member function `VRODracoMeshLoader::decodeDracoData`.  The first
argument is `draco::Decoder::DecodeMeshFromBuffer`; the result is the returned
flag with the final `sourcesOut` and `elementsOut`. -/
def decodeDracoData (DecodeMeshFromBuffer : List UInt8 → Except String Mesh)
    (data : List UInt8) (attributeTypeMap : AttributeTypeMap)
    (sourcesOut : List VROGeometrySource) (elementsOut : List VROGeometryElement) :
    Bool × List VROGeometrySource × List VROGeometryElement :=
  match DecodeMeshFromBuffer data with
  | Except.error _ => (false, sourcesOut, elementsOut)
  | Except.ok mesh =>
    let sourcesOut := attributeTypeMap.entries.foldl (attributeStep mesh) sourcesOut
    let element := indexElement mesh
    (true, sourcesOut, elementsOut ++ [element])

/-! ## Vocabulary of the specification -/

/-- The six semantic names the specification calls recognised. -/
def recognisedNames : List String :=
  ["POSITION", "NORMAL", "TEXCOORD_0", "COLOR_0", "JOINTS_0", "WEIGHTS_0"]

/-- An attribute with the unique id of a map entry is present in the mesh. -/
def idPresent (mesh : Mesh) (uniqueId : Int) : Bool :=
  mesh.attributes.any (fun a => a.unique_id == toUInt32 uniqueId)

/-- The map entries the specification counts: a recognised name and a unique id
present in the mesh. -/
def contributing (mesh : Mesh) (e : String × Int) : Bool :=
  decide (e.1 ∈ recognisedNames) && idPresent mesh e.2

/-- The semantics of the six recognised names, in ascending order of name. -/
def semanticsByName : List VROGeometrySourceSemantic :=
  [VROGeometrySourceSemantic.Color, VROGeometrySourceSemantic.BoneIndices,
   VROGeometrySourceSemantic.Normal, VROGeometrySourceSemantic.Vertex,
   VROGeometrySourceSemantic.Texcoord, VROGeometrySourceSemantic.BoneWeights]

/-! ## Sample inputs -/

/-- The bit pattern of `10.0f`. -/
def f10 : Float32 := ⟨1092616192⟩

/-- The bit pattern of `20.0f`. -/
def f20 : Float32 := ⟨1101004800⟩

/-- The conversion of a one-component attribute that stores two values, `10.0f`
at value index 0 and `20.0f` at value index 1: the stored component first,
zeros for further requested components, and failure with nothing stored for a
value index outside the table. -/
def twoValueConvert (att_id n : Nat) : ConvertResult :=
  match att_id with
  | 0 => ⟨true, (f10 :: List.replicate (n - 1) ⟨0⟩).take n⟩
  | 1 => ⟨true, (f20 :: List.replicate (n - 1) ⟨0⟩).take n⟩
  | _ => ⟨false, []⟩

/-- A float attribute with two values shared by three points through an
explicit mapping: points 0, 1, 2 use values 1, 0, 1. -/
def remappedAttribute : PointAttribute :=
  { unique_id := 0
    num_components := 1
    data_type := DataType.DT_FLOAT32
    identity_mapping := false
    indices_map := [1, 0, 1]
    ConvertValue := twoValueConvert }

/-- The conversion of a one-component byte attribute that stores the three
values 1, 2, 3 (as `1.0f`, `2.0f`, `3.0f`). -/
def threeValueConvert (att_id n : Nat) : ConvertResult :=
  match att_id with
  | 0 => ⟨true, (⟨1065353216⟩ :: List.replicate (n - 1) ⟨0⟩).take n⟩
  | 1 => ⟨true, (⟨1073741824⟩ :: List.replicate (n - 1) ⟨0⟩).take n⟩
  | 2 => ⟨true, (⟨1077936128⟩ :: List.replicate (n - 1) ⟨0⟩).take n⟩
  | _ => ⟨false, []⟩

/-- A byte attribute with one value per point (identity mapping). -/
def byteAttribute : PointAttribute :=
  { unique_id := 1
    num_components := 1
    data_type := DataType.DT_UINT8
    identity_mapping := true
    indices_map := []
    ConvertValue := threeValueConvert }

/-- A mesh of three points and two faces carrying the two sample attributes. -/
def sampleMesh : Mesh :=
  { num_points := 3
    faces := [⟨0, 1, 2⟩, ⟨2, 1, 0⟩]
    attributes := [remappedAttribute, byteAttribute] }

/-- A decoder that rejects the empty buffer and decodes anything else to the
sample mesh. -/
def sampleDecoder (data : List UInt8) : Except String Mesh :=
  if data.isEmpty then Except.error "empty buffer" else Except.ok sampleMesh

/-- A map with a recognised name of a present id, a recognised name of an
absent id, a second name for the first id, and an unrecognised name. -/
def sampleMap : AttributeTypeMap :=
  { entries := [("COLOR_0", 1), ("NORMAL", 5), ("POSITION", 1), ("TEXCOORD_1", 0)]
    ascending := by decide }

/-- A map with all six recognised names, each naming a present attribute. -/
def fullMap : AttributeTypeMap :=
  { entries := [("COLOR_0", 0), ("JOINTS_0", 1), ("NORMAL", 0), ("POSITION", 0),
      ("TEXCOORD_0", 1), ("WEIGHTS_0", 1)]
    ascending := by decide }

/-- A conversion that stores `10.0f` for value 0 and `20.0f` for value 2 and
fails, storing nothing, for value 1 and for any other value index. -/
def gapConvert (att_id n : Nat) : ConvertResult :=
  match att_id with
  | 0 => ⟨true, (f10 :: List.replicate (n - 1) ⟨0⟩).take n⟩
  | 2 => ⟨true, (f20 :: List.replicate (n - 1) ⟨0⟩).take n⟩
  | _ => ⟨false, []⟩

/-- An identity-mapped attribute whose conversion fails at the middle value. -/
def gapAttribute : PointAttribute :=
  { unique_id := 2
    num_components := 1
    data_type := DataType.DT_FLOAT32
    identity_mapping := true
    indices_map := []
    ConvertValue := gapConvert }

/-- A mesh of three points and one face carrying the attribute with the failing
conversion. -/
def gapMesh : Mesh :=
  { num_points := 3
    faces := [⟨0, 1, 2⟩]
    attributes := [gapAttribute] }

/-- A decoder that always yields the mesh with the failing conversion. -/
def gapDecoder (_data : List UInt8) : Except String Mesh := Except.ok gapMesh

/-- A map that names the attribute with the failing conversion as positions. -/
def gapMap : AttributeTypeMap :=
  { entries := [("POSITION", 2)]
    ascending := by decide }

/-- The empty attribute map. -/
def emptyMap : AttributeTypeMap :=
  { entries := []
    ascending := List.Pairwise.nil }

/-- A mesh with 715827883 faces, the least count whose triple exceeds the
largest `int`. -/
def hugeMesh : Mesh :=
  { num_points := 3
    faces := List.replicate 715827883 ⟨0, 1, 2⟩
    attributes := [] }

/-- A decoder that always yields the mesh with 715827883 faces. -/
def hugeDecoder (_data : List UInt8) : Except String Mesh := Except.ok hugeMesh

/-- A mesh with 2147483649 points and one face whose first corner is the point
index 2147483648, above the largest `int`. -/
def wideMesh : Mesh :=
  { num_points := 2147483649
    faces := [⟨2147483648, 0, 1⟩]
    attributes := [] }

/-- A decoder that always yields the mesh with the large point index. -/
def wideDecoder (_data : List UInt8) : Except String Mesh := Except.ok wideMesh

/-- A mesh with 536870912 points, for which four bytes per point exceed the
largest `int`. -/
def manyPointsMesh : Mesh :=
  { num_points := 536870912
    faces := []
    attributes := [byteAttribute] }

/-- A mesh with 4294967295 points, the largest `uint32_t` count. -/
def maxPointsMesh : Mesh :=
  { num_points := 4294967295
    faces := []
    attributes := [gapAttribute] }

/-! ## Machine integers in range -/

theorem toInt32_of_range (x : Int) (h1 : -2147483648 ≤ x) (h2 : x < 2147483648) :
    toInt32 x = x := by
  unfold toInt32
  omega

theorem toUInt32_of_range (n : Nat) (h : n < 4294967296) : toUInt32 (n : Int) = n := by
  unfold toUInt32
  omega

theorem toSizeT_of_range (n : Nat) (h : n < 18446744073709551616) : toSizeT (n : Int) = n := by
  unfold toSizeT
  omega

theorem mulInt32_of_range (a b : Nat) (h : a * b < 2147483648) :
    mulInt32 (a : Int) (b : Int) = ((a * b : Nat) : Int) := by
  unfold mulInt32
  rw [← Int.ofNat_mul]
  exact toInt32_of_range _ (by omega) (by omega)

/-! ## The loops -/

theorem storeFrom_length {α : Type} (vs : List α) :
    ∀ (buf : List (Option α)) (pos : Nat), (storeFrom buf pos vs).length = buf.length := by
  induction vs with
  | nil => intro buf pos; rfl
  | cons v vs ih => intro buf pos; simp [storeFrom, ih]

theorem storeFrom_getElem? {α : Type} (vs : List α) :
    ∀ (buf : List (Option α)) (pos k : Nat), k < buf.length →
      (storeFrom buf pos vs)[k]? =
        if pos ≤ k ∧ k < pos + vs.length then some (vs[k - pos]?) else buf[k]? := by
  induction vs with
  | nil =>
    intro buf pos k _
    rw [storeFrom, if_neg]
    simp only [List.length_nil]
    omega
  | cons v vs ih =>
    intro buf pos k hk
    rw [storeFrom, ih _ _ _ (by simpa using hk)]
    by_cases h1 : pos + 1 ≤ k
    · have e : k - pos = (k - (pos + 1)) + 1 := by omega
      by_cases h2 : k < pos + 1 + vs.length
      · have h3 : pos ≤ k ∧ k < pos + (v :: vs).length := by simp; omega
        rw [if_pos ⟨h1, h2⟩, if_pos h3, e, List.getElem?_cons_succ]
      · have h3 : ¬ (pos ≤ k ∧ k < pos + (v :: vs).length) := by simp; omega
        rw [if_neg (by tauto), if_neg h3, List.getElem?_set_ne (by omega)]
    · rw [if_neg (by omega)]
      by_cases h4 : pos = k
      · subst h4
        simp [List.getElem?_set_self, hk]
      · rw [if_neg (by omega), List.getElem?_set_ne h4]


theorem foldl_indexStep_length (mesh : Mesh) (n : Nat) (buf : List (Option Int)) :
    ((List.range n).foldl (indexStep mesh) buf).length = buf.length := by
  induction n with
  | zero => rfl
  | succ n ih => simp [List.range_succ, List.foldl_append, indexStep, ih]

theorem indexStep_of_range (mesh : Mesh) (buf : List (Option Int)) (i : Nat)
    (h : i * 3 + 2 < 4294967296) :
    indexStep mesh buf i
      = ((buf.set (i * 3 + 0) (some (toInt32 ((mesh.face i).get 0)))).set (i * 3 + 1)
          (some (toInt32 ((mesh.face i).get 1)))).set (i * 3 + 2)
          (some (toInt32 ((mesh.face i).get 2))) := by
  have e0 : toUInt32 ((i : Int) * 3 + 0) = i * 3 + 0 := by
    have := toUInt32_of_range (i * 3 + 0) (by omega)
    rw [← this]; congr 1
  have e1 : toUInt32 ((i : Int) * 3 + 1) = i * 3 + 1 := by
    have := toUInt32_of_range (i * 3 + 1) (by omega)
    rw [← this]; congr 1
  have e2 : toUInt32 ((i : Int) * 3 + 2) = i * 3 + 2 := by
    have := toUInt32_of_range (i * 3 + 2) (by omega)
    rw [← this]; congr 1
  simp only [indexStep, e0, e1, e2]

theorem foldl_indexStep_getElem? (mesh : Mesh) (buf : List (Option Int)) (n : Nat)
    (hn : n * 3 < 4294967296) :
    ∀ i, i < n → ∀ k : Fin 3, i * 3 + k.val < buf.length →
      ((List.range n).foldl (indexStep mesh) buf)[i * 3 + k.val]?
        = some (some (toInt32 ((mesh.face i).get k))) := by
  induction n with
  | zero => intro i hi; omega
  | succ n ih =>
    intro i hi k hk
    have hlen := foldl_indexStep_length mesh n buf
    rw [List.range_succ, List.foldl_append, List.foldl_cons, List.foldl_nil,
      indexStep_of_range mesh _ n (by omega)]
    by_cases hin : i = n
    · subst hin
      obtain ⟨k, hk3⟩ := k
      interval_cases k <;> simp [List.getElem?_set, hlen, Face.get] at hk ⊢ <;> omega
    · have hi2 : i < n := by omega
      have := ih (by omega) i hi2 k hk
      have hk3 := k.isLt
      rw [List.getElem?_set_ne (by omega), List.getElem?_set_ne (by omega),
        List.getElem?_set_ne (by omega)]
      exact this

theorem convertStep_of_range (att : PointAttribute) (C : Nat) (data : List (Option Float32))
    (i : Nat) (h : i * C * 4 < 2147483648) (hi : i < 2147483648) :
    convertStep att (C : Int) ((sizeofFloat : Nat) : Int) data i
      = storeFrom data (i * C) ((att.ConvertValue i C).written.take C) := by
  have h1 : mulInt32 (i : Int) (C : Int) = ((i * C : Nat) : Int) :=
    mulInt32_of_range i C (by omega)
  have h2 : mulInt32 ((i * C : Nat) : Int) ((sizeofFloat : Nat) : Int)
      = ((i * C * sizeofFloat : Nat) : Int) :=
    mulInt32_of_range (i * C) sizeofFloat (by simp only [sizeofFloat]; omega)
  have h3 : toUInt32 (i : Int) = i := toUInt32_of_range i (by omega)
  simp only [convertStep, h1, h2, h3, Int.toNat_ofNat, Int.ofNat_nonneg, if_true,
    Nat.mul_div_cancel _ (by decide : 0 < sizeofFloat)]

theorem convertStep_length (att : PointAttribute) (C B : Int)
    (data : List (Option Float32)) (i : Nat) :
    (convertStep att C B data i).length = data.length := by
  simp only [convertStep]
  split
  · exact storeFrom_length _ _ _
  · rfl

theorem foldl_convertStep_length (att : PointAttribute) (C B : Int) (n : Nat)
    (buf : List (Option Float32)) :
    ((List.range n).foldl (convertStep att C B) buf).length = buf.length := by
  induction n with
  | zero => rfl
  | succ n ih =>
    rw [List.range_succ, List.foldl_append, List.foldl_cons, List.foldl_nil,
      convertStep_length, ih]

theorem foldl_convertStep_getElem? (att : PointAttribute) (C : Nat)
    (buf : List (Option Float32)) (n : Nat)
    (hn : n * C * 4 < 2147483648) (hn2 : n ≤ 2147483648) :
    ∀ i c, c < C → i * C + c < buf.length →
      ((List.range n).foldl (convertStep att (C : Int) ((sizeofFloat : Nat) : Int)) buf)[i * C + c]?
        = if i < n ∧ c < (att.ConvertValue i C).written.length
          then some ((att.ConvertValue i C).written[c]?) else buf[i * C + c]? := by
  induction n with
  | zero => intro i c _ _; simp
  | succ n ih =>
    intro i c hc hk
    have hsucc : (n + 1) * C * 4 = n * C * 4 + C * 4 := by ring
    have hlen := foldl_convertStep_length att (C : Int) ((sizeofFloat : Nat) : Int) n buf
    rw [List.range_succ, List.foldl_append, List.foldl_cons, List.foldl_nil,
      convertStep_of_range att C _ n (by omega) (by omega),
      storeFrom_getElem? _ _ _ _ (by rw [hlen]; exact hk), ih (by omega) (by omega) i c hc hk]
    rcases Nat.lt_trichotomy i n with hlt | heq | hgt
    · have h1 : i * C + C ≤ n * C := by
        have := Nat.mul_le_mul_right C (Nat.succ_le_of_lt hlt)
        rwa [Nat.succ_mul] at this
      rw [if_neg (by omega)]
      by_cases hw : c < (att.ConvertValue i C).written.length
      · rw [if_pos ⟨hlt, hw⟩, if_pos ⟨by omega, hw⟩]
      · rw [if_neg (by tauto), if_neg (by tauto)]
    · subst heq
      by_cases hw : c < (att.ConvertValue i C).written.length
      · rw [if_pos ⟨by omega, by simp; omega⟩, if_pos ⟨by omega, hw⟩]
        simp [List.getElem?_take, hc]
      · rw [if_neg (by simp; omega), if_neg (by omega), if_neg (by tauto)]
    · have h1 : n * C + C ≤ i * C := by
        have := Nat.mul_le_mul_right C (Nat.succ_le_of_lt hgt)
        rwa [Nat.succ_mul] at this
      have h2 : ((att.ConvertValue n C).written.take C).length ≤ C := by simp
      rw [if_neg (by omega), if_neg (by omega), if_neg (by omega)]

/-! ## processAttribute -/

theorem processAttribute_append (mesh : Mesh) (att : PointAttribute)
    (semantic : VROGeometrySourceSemantic) (sources : List VROGeometrySource) :
    processAttribute mesh att semantic sources
      = sources ++ processAttribute mesh att semantic [] := by
  simp [processAttribute]

theorem mulInt32_components (att : PointAttribute) :
    mulInt32 (att.num_components.val : Int) ((sizeofFloat : Nat) : Int)
      = 4 * (att.num_components.val : Int) := by
  have hC := att.num_components.isLt
  rw [mulInt32_of_range _ _ (by simp only [sizeofFloat]; omega)]
  simp only [sizeofFloat]
  push_cast
  ring

theorem processAttribute_shape (mesh : Mesh) (att : PointAttribute)
    (semantic : VROGeometrySourceSemantic) (sources : List VROGeometrySource) :
    ∃ src : VROGeometrySource,
      processAttribute mesh att semantic sources = sources ++ [src] ∧
      src.semantic = semantic ∧
      src.floatComponents = true ∧
      src.componentsPerVertex = (att.num_components.val : Int) ∧
      src.bytesPerComponent = 4 ∧
      src.dataOffset = 0 ∧
      src.dataStride = 4 * (att.num_components.val : Int) ∧
      src.vertexCount = toInt32 (mesh.num_points : Int) ∧
      src.data.dataLength
        = mulInt32 (mulInt32 (toInt32 (mesh.num_points : Int)) (att.num_components.val : Int)) 4 ∧
      src.data.cells = (List.range (toInt32 (mesh.num_points : Int)).toNat).foldl
        (convertStep att (att.num_components.val : Int) ((sizeofFloat : Nat) : Int))
        (List.replicate
          ((mulInt32 (mulInt32 (toInt32 (mesh.num_points : Int))
            (att.num_components.val : Int)) 4).toNat / 4) none) := by
  refine ⟨_, rfl, rfl, rfl, rfl, ?_, rfl, ?_, rfl, ?_, ?_⟩
  · simp [sizeofFloat]
  · simp only [ite_self]
    exact mulInt32_components att
  · simp [VROData.alloc, sizeofFloat]
  · simp [VROData.alloc, sizeofFloat]

theorem processAttribute_source (mesh : Mesh) (att : PointAttribute)
    (semantic : VROGeometrySourceSemantic) (sources : List VROGeometrySource)
    (hP : mesh.num_points < 2147483648)
    (hbytes : mesh.num_points * att.num_components.val * 4 < 2147483648) :
    ∃ src : VROGeometrySource,
      processAttribute mesh att semantic sources = sources ++ [src] ∧
      src.semantic = semantic ∧
      src.vertexCount = (mesh.num_points : Int) ∧
      src.floatComponents = true ∧
      src.componentsPerVertex = (att.num_components.val : Int) ∧
      src.bytesPerComponent = 4 ∧
      src.dataOffset = 0 ∧
      src.dataStride = 4 * (att.num_components.val : Int) ∧
      src.data.dataLength = ((mesh.num_points * att.num_components.val * 4 : Nat) : Int) ∧
      src.data.cells.length = mesh.num_points * att.num_components.val ∧
      ∀ i, i < mesh.num_points → ∀ c, c < att.num_components.val →
        src.data.cells[i * att.num_components.val + c]?
          = some ((att.ConvertValue i att.num_components.val).written[c]?) := by
  obtain ⟨src, hsrc, hsem, hf, hc, hb, ho, hs, hv, hd, hcells⟩ :=
    processAttribute_shape mesh att semantic sources
  have hvc : toInt32 (mesh.num_points : Int) = (mesh.num_points : Int) :=
    toInt32_of_range _ (by omega) (by omega)
  have hlenInt : mulInt32 (mulInt32 (toInt32 (mesh.num_points : Int))
      (att.num_components.val : Int)) 4
      = ((mesh.num_points * att.num_components.val * 4 : Nat) : Int) := by
    rw [hvc, mulInt32_of_range _ _ (by omega)]
    exact mulInt32_of_range (mesh.num_points * att.num_components.val) 4 hbytes
  rw [hvc] at hv
  rw [hlenInt] at hd
  rw [hlenInt, hvc, Int.toNat_ofNat, Int.toNat_ofNat,
    Nat.mul_div_cancel _ (by decide : 0 < 4)] at hcells
  refine ⟨src, hsrc, hsem, hv, hf, hc, hb, ho, hs, hd, ?_, ?_⟩
  · rw [hcells, foldl_convertStep_length, List.length_replicate]
  · intro i hi c hc2
    have hk : i * att.num_components.val + c < mesh.num_points * att.num_components.val := by
      have := Nat.mul_le_mul_right att.num_components.val (Nat.succ_le_of_lt hi)
      rw [Nat.succ_mul] at this
      omega
    rw [hcells, foldl_convertStep_getElem? att att.num_components.val _ mesh.num_points
      hbytes (by omega) i c hc2 (by simpa using hk)]
    by_cases hw : c < (att.ConvertValue i att.num_components.val).written.length
    · rw [if_pos ⟨hi, hw⟩]
    · rw [if_neg (fun hboth => hw hboth.2), List.getElem?_replicate, if_pos hk,
        List.getElem?_eq_none (by omega)]

/-! ## The attribute loop -/

theorem semanticOf_ne_invalid_iff (name : String) :
    semanticOf name ≠ VROGeometrySourceSemantic.Invalid ↔ name ∈ recognisedNames := by
  unfold semanticOf recognisedNames
  by_cases h1 : name = "POSITION"
  · simp [h1]
  by_cases h2 : name = "NORMAL"
  · simp [h2]
  by_cases h3 : name = "TEXCOORD_0"
  · simp [h3]
  by_cases h4 : name = "COLOR_0"
  · simp [h4]
  by_cases h5 : name = "JOINTS_0"
  · simp [h5]
  by_cases h6 : name = "WEIGHTS_0"
  · simp [h6]
  simp [h1, h2, h3, h4, h5, h6]

theorem GetAttributeByUniqueId_isSome (mesh : Mesh) (uniqueId : Int) :
    (mesh.GetAttributeByUniqueId (toUInt32 uniqueId)).isSome = idPresent mesh uniqueId := by
  unfold Mesh.GetAttributeByUniqueId idPresent
  rw [Bool.eq_iff_iff, List.find?_isSome, List.any_eq_true]

theorem attributeStep_append (mesh : Mesh) (sourcesOut : List VROGeometrySource)
    (e : String × Int) :
    attributeStep mesh sourcesOut e = sourcesOut ++ attributeStep mesh [] e := by
  cases hfind : mesh.GetAttributeByUniqueId (toUInt32 e.2) with
  | none => simp [attributeStep, hfind]
  | some att =>
    by_cases h : semanticOf e.1 = VROGeometrySourceSemantic.Invalid
    · simp [attributeStep, hfind, h]
    · simp only [attributeStep, hfind, bne_iff_ne, ne_eq, h, not_false_eq_true, if_true]
      exact processAttribute_append mesh att _ sourcesOut

theorem foldl_attributeStep (mesh : Mesh) (entries : List (String × Int)) :
    ∀ sourcesOut : List VROGeometrySource,
      entries.foldl (attributeStep mesh) sourcesOut
        = sourcesOut ++ entries.flatMap (attributeStep mesh []) := by
  induction entries with
  | nil => intro s; simp
  | cons e es ih =>
    intro s
    rw [List.foldl_cons, ih, attributeStep_append, List.flatMap_cons, List.append_assoc]

theorem attributeStep_cases (mesh : Mesh) (e : String × Int) :
    (contributing mesh e = false ∧ attributeStep mesh [] e = []) ∨
    (contributing mesh e = true ∧
      ∃ att src, mesh.GetAttributeByUniqueId (toUInt32 e.2) = some att ∧
        attributeStep mesh [] e = [src] ∧
        processAttribute mesh att (semanticOf e.1) [] = [src] ∧
        src.semantic = semanticOf e.1 ∧
        src.semantic ≠ VROGeometrySourceSemantic.Invalid) := by
  have hpres := GetAttributeByUniqueId_isSome mesh e.2
  have hrec := semanticOf_ne_invalid_iff e.1
  cases hfind : mesh.GetAttributeByUniqueId (toUInt32 e.2) with
  | none =>
    left
    rw [hfind] at hpres
    simp [attributeStep, contributing, hfind, ← hpres]
  | some att =>
    rw [hfind] at hpres
    by_cases h : semanticOf e.1 = VROGeometrySourceSemantic.Invalid
    · left
      have : e.1 ∉ recognisedNames := fun hm => (hrec.mpr hm) h
      simp [attributeStep, contributing, hfind, h, this]
    · right
      obtain ⟨src, hsrc, hsem, -⟩ := processAttribute_shape mesh att (semanticOf e.1) []
      refine ⟨by simp [contributing, ← hpres, hrec.mp h], att, src, rfl, ?_,
        by simpa using hsrc, hsem, ?_⟩
      · simp only [attributeStep, hfind, bne_iff_ne, ne_eq, h, not_false_eq_true, if_true]
        simpa using hsrc
      · rw [hsem]; exact h

/-! ## decodeDracoData on a decoded mesh -/

theorem decodeDracoData_error (DecodeMeshFromBuffer : List UInt8 → Except String Mesh)
    (data : List UInt8) (attributeTypeMap : AttributeTypeMap)
    (sourcesOut : List VROGeometrySource) (elementsOut : List VROGeometryElement)
    (msg : String) (h : DecodeMeshFromBuffer data = Except.error msg) :
    decodeDracoData DecodeMeshFromBuffer data attributeTypeMap sourcesOut elementsOut
      = (false, sourcesOut, elementsOut) := by
  simp [decodeDracoData, h]

theorem decodeDracoData_shape (DecodeMeshFromBuffer : List UInt8 → Except String Mesh)
    (data : List UInt8) (attributeTypeMap : AttributeTypeMap)
    (sourcesOut : List VROGeometrySource) (elementsOut : List VROGeometryElement)
    (mesh : Mesh) (h : DecodeMeshFromBuffer data = Except.ok mesh) :
    decodeDracoData DecodeMeshFromBuffer data attributeTypeMap sourcesOut elementsOut
      = (true, sourcesOut ++ attributeTypeMap.entries.flatMap (attributeStep mesh []),
          elementsOut ++ [indexElement mesh]) := by
  simp only [decodeDracoData, h, foldl_attributeStep]

theorem indexElement_fields (mesh : Mesh) :
    (indexElement mesh).primitiveType = VROGeometryPrimitiveType.Triangle ∧
    (indexElement mesh).bytesPerIndex = 4 ∧
    (indexElement mesh).primitiveCount
      = Int.tdiv (mulInt32 (toInt32 (mesh.num_faces : Int)) 3) 3 ∧
    (indexElement mesh).data.dataLength
      = ((toSizeT ((toSizeT (mulInt32 (toInt32 (mesh.num_faces : Int)) 3) * 4 : Nat) : Int)
          : Nat) : Int) ∧
    (indexElement mesh).data.cells
      = (List.range (toUInt32 (toInt32 (mesh.num_faces : Int)))).foldl (indexStep mesh)
          (List.replicate
            (toSizeT ((toSizeT (mulInt32 (toInt32 (mesh.num_faces : Int)) 3) * 4 : Nat) : Int)
              / 4) none) := by
  refine ⟨?_, ?_, ?_, ?_, ?_⟩
  · simp only [indexElement]
  · simp only [indexElement, sizeofInt, Nat.cast_ofNat]
  · simp only [indexElement]
  · simp only [indexElement, sizeofInt]
  · dsimp only [indexElement, VROData.alloc, sizeofInt]
    rw [Int.toNat_ofNat]

theorem indexElement_of_range (mesh : Mesh) (hF : 3 * mesh.num_faces < 2147483648) :
    (indexElement mesh).primitiveCount = (mesh.num_faces : Int) ∧
    (indexElement mesh).data.dataLength = ((12 * mesh.num_faces : Nat) : Int) ∧
    (indexElement mesh).data.cells.length = 3 * mesh.num_faces ∧
    ∀ i, i < mesh.num_faces → ∀ k : Fin 3,
      (indexElement mesh).data.cells[3 * i + k.val]?
        = some (some (toInt32 ((mesh.face i).get k))) := by
  obtain ⟨-, -, hp, hd, hcells⟩ := indexElement_fields mesh
  have hnum : toInt32 (mesh.num_faces : Int) = (mesh.num_faces : Int) :=
    toInt32_of_range _ (by omega) (by omega)
  have hcount : mulInt32 (toInt32 (mesh.num_faces : Int)) 3 = ((mesh.num_faces * 3 : Nat) : Int) := by
    rw [hnum]
    exact mulInt32_of_range mesh.num_faces 3 (by omega)
  have hsize : toSizeT ((toSizeT (mulInt32 (toInt32 (mesh.num_faces : Int)) 3) * 4 : Nat) : Int)
      = 12 * mesh.num_faces := by
    have hinner : toSizeT (mulInt32 (toInt32 (mesh.num_faces : Int)) 3) = mesh.num_faces * 3 := by
      rw [hcount]
      exact toSizeT_of_range _ (by omega)
    rw [hinner, toSizeT_of_range _ (by omega)]
    omega
  have hloop : toUInt32 (toInt32 (mesh.num_faces : Int)) = mesh.num_faces := by
    rw [hnum]
    exact toUInt32_of_range _ (by omega)
  have h4 : 12 * mesh.num_faces / 4 = 3 * mesh.num_faces := by omega
  rw [hsize] at hd
  rw [hloop, hsize, h4] at hcells
  refine ⟨?_, hd, ?_, ?_⟩
  · rw [hp, hcount, Int.ofNat_mul]
    exact Int.mul_tdiv_cancel _ (by decide)
  · rw [hcells, foldl_indexStep_length, List.length_replicate]
  · intro i hi k
    have hk := k.isLt
    rw [hcells, Nat.mul_comm 3 i]
    exact foldl_indexStep_getElem? mesh _ mesh.num_faces (by omega) i hi k
      (by rw [List.length_replicate]; omega)

theorem flatMap_attributeStep (mesh : Mesh) (entries : List (String × Int)) :
    List.Forall₂ (fun e src => attributeStep mesh [] e = [src] ∧ src.semantic = semanticOf e.1)
      (entries.filter (contributing mesh)) (entries.flatMap (attributeStep mesh [])) := by
  induction entries with
  | nil => exact List.Forall₂.nil
  | cons e es ih =>
    rcases attributeStep_cases mesh e with ⟨hc, hnil⟩ | ⟨hc, att, src, -, hone, -, hsem, -⟩
    · rw [List.filter_cons_of_neg (by simp [hc]), List.flatMap_cons, hnil, List.nil_append]
      exact ih
    · rw [List.filter_cons_of_pos hc, List.flatMap_cons, hone]
      exact List.Forall₂.cons ⟨hone, hsem⟩ ih

theorem map_semantic_of_forall₂ (mesh : Mesh) :
    ∀ (es : List (String × Int)) (srcs : List VROGeometrySource),
      List.Forall₂ (fun e src => attributeStep mesh [] e = [src] ∧ src.semantic = semanticOf e.1)
        es srcs →
      srcs.map (fun src => src.semantic) = (es.map Prod.fst).map semanticOf := by
  intro es srcs hf
  induction hf with
  | nil => rfl
  | cons hab _ ih => simp only [List.map_cons, ih, hab.2]

theorem stringLess_asymm (a b : String) (h1 : stringLess a b) (h2 : stringLess b a) : False :=
  lt_asymm h1 h2

theorem stringLess_irrefl (a : String) (h : stringLess a a) : False :=
  lt_irrefl _ h

theorem nodup_of_pairwise_stringLess (l : List String) (h : l.Pairwise stringLess) :
    l.Nodup := by
  unfold List.Nodup
  refine h.imp ?_
  intro a b hab heq
  subst heq
  exact stringLess_irrefl a hab

theorem sorted_names_sublist (names : List String)
    (hsorted : names.Pairwise stringLess) (hsub : ∀ n ∈ names, n ∈ recognisedNames) :
    names.Sublist ["COLOR_0", "JOINTS_0", "NORMAL", "POSITION", "TEXCOORD_0", "WEIGHTS_0"] ∧
    ((∀ n ∈ recognisedNames, n ∈ names) →
      names = ["COLOR_0", "JOINTS_0", "NORMAL", "POSITION", "TEXCOORD_0", "WEIGHTS_0"]) := by
  haveI : IsAntisymm String stringLess := ⟨fun a b h1 h2 => (stringLess_asymm a b h1 h2).elim⟩
  have hcanon : List.Sorted stringLess
      ["COLOR_0", "JOINTS_0", "NORMAL", "POSITION", "TEXCOORD_0", "WEIGHTS_0"] := by
    unfold List.Sorted
    decide
  have hnodup : names.Nodup := nodup_of_pairwise_stringLess names hsorted
  have hsubset : names ⊆ ["COLOR_0", "JOINTS_0", "NORMAL", "POSITION", "TEXCOORD_0", "WEIGHTS_0"] := by
    intro n hn
    have := hsub n hn
    simp only [recognisedNames, List.mem_cons, List.mem_singleton, List.not_mem_nil, or_false]
      at this ⊢
    tauto
  have hsl := List.sublist_of_subperm_of_sorted (List.subperm_of_subset hnodup hsubset)
    hsorted hcanon
  refine ⟨hsl, fun hall => ?_⟩
  have hsubset2 : ["COLOR_0", "JOINTS_0", "NORMAL", "POSITION", "TEXCOORD_0", "WEIGHTS_0"] ⊆ names := by
    intro n hn
    apply hall
    simp only [recognisedNames, List.mem_cons, List.mem_singleton, List.not_mem_nil, or_false]
      at hn ⊢
    tauto
  have hperm := List.Subperm.antisymm hsl.subperm
    (List.subperm_of_subset (nodup_of_pairwise_stringLess _ hcanon) hsubset2)
  exact List.eq_of_perm_of_sorted hperm hsorted hcanon

theorem decodeDracoData_returns_true_of_ok
    (DecodeMeshFromBuffer : List UInt8 → Except String Mesh)
    (data : List UInt8) (attributeTypeMap : AttributeTypeMap)
    (sourcesOut : List VROGeometrySource) (elementsOut : List VROGeometryElement)
    (mesh : Mesh) (h : DecodeMeshFromBuffer data = Except.ok mesh) :
    (decodeDracoData DecodeMeshFromBuffer data attributeTypeMap sourcesOut elementsOut).1
      = true := by
  rw [decodeDracoData_shape DecodeMeshFromBuffer data attributeTypeMap sourcesOut
    elementsOut mesh h]

/-! ## The claims -/

/-- C1, counterexample: for the mesh with 715827883 faces the `int` product
`numFaces * 3` wraps to -2147483647, so the buffer of the appended element has
neither 4*(3*F) bytes nor 3*F cells; and for the mesh whose first corner is the
point index 2147483648 the stored `int` is -2147483648. -/
theorem decodeDracoData_index_buffer_overflow :
    hugeMesh.num_faces = 715827883 ∧
    mulInt32 (toInt32 ((715827883 : Nat) : Int)) 3 = -2147483647 ∧
    (decodeDracoData hugeDecoder [] emptyMap [] []).2.2 = [indexElement hugeMesh] ∧
    (indexElement hugeMesh).data.dataLength ≠ ((4 * (3 * hugeMesh.num_faces) : Nat) : Int) ∧
    (indexElement hugeMesh).data.cells.length ≠ 3 * hugeMesh.num_faces ∧
    (wideMesh.face 0).get 0 = 2147483648 ∧
    (decodeDracoData wideDecoder [] emptyMap [] []).2.2.map (fun e => e.data.cells)
      = [[some (-2147483648), some 0, some 1]] := by
  have hF : hugeMesh.num_faces = 715827883 := by
    simp only [hugeMesh, Mesh.num_faces, List.length_replicate]
  obtain ⟨-, -, -, hd, hcells⟩ := indexElement_fields hugeMesh
  rw [hF] at hd hcells
  have hsize : toSizeT ((toSizeT (mulInt32 (toInt32 ((715827883 : Nat) : Int)) 3) * 4 : Nat) : Int)
      = 18446744065119617028 := by decide
  rw [hsize] at hd hcells
  have hlen : (indexElement hugeMesh).data.cells.length = 4611686016279904257 := by
    rw [hcells, foldl_indexStep_length, List.length_replicate]
  refine ⟨hF, by decide, ?_, ?_, ?_, by decide, by decide⟩
  · rw [decodeDracoData_shape hugeDecoder [] emptyMap [] [] hugeMesh rfl]
    rfl
  · rw [hd, hF]
    decide
  · rw [hlen, hF]
    decide

/-- C1, amended: on a decoded mesh with F faces where 3*F is at most 2^31-1
the appended element holds exactly 3*F four-byte indices, and the index at
position 3*i+k is the point index of corner k of face i converted to `int`,
which is the point index itself whenever that is at most 2^31-1. -/
theorem decodeDracoData_index_buffer
    (DecodeMeshFromBuffer : List UInt8 → Except String Mesh)
    (data : List UInt8) (attributeTypeMap : AttributeTypeMap)
    (sourcesOut : List VROGeometrySource) (elementsOut : List VROGeometryElement)
    (mesh : Mesh) (h : DecodeMeshFromBuffer data = Except.ok mesh)
    (hF : 3 * mesh.num_faces < 2147483648) :
    ∃ element : VROGeometryElement,
      (decodeDracoData DecodeMeshFromBuffer data attributeTypeMap sourcesOut elementsOut).2.2
        = elementsOut ++ [element] ∧
      element.bytesPerIndex = 4 ∧
      element.data.dataLength = ((4 * (3 * mesh.num_faces) : Nat) : Int) ∧
      element.data.cells.length = 3 * mesh.num_faces ∧
      ∀ i, i < mesh.num_faces → ∀ k : Fin 3,
        element.data.cells[3 * i + k.val]? = some (some (toInt32 ((mesh.face i).get k))) ∧
        ((mesh.face i).get k < 2147483648 →
          element.data.cells[3 * i + k.val]? = some (some (((mesh.face i).get k : Nat) : Int))) := by
  obtain ⟨-, hb, -, -, -⟩ := indexElement_fields mesh
  obtain ⟨-, hd, hl, hc⟩ := indexElement_of_range mesh hF
  refine ⟨indexElement mesh, ?_, hb, ?_, hl, ?_⟩
  · rw [decodeDracoData_shape DecodeMeshFromBuffer data attributeTypeMap sourcesOut
      elementsOut mesh h]
  · have h12 : 12 * mesh.num_faces = 4 * (3 * mesh.num_faces) := by omega
    rw [hd, h12]
  · intro i hi k
    refine ⟨hc i hi k, fun hsmall => ?_⟩
    rw [hc i hi k, toInt32_of_range _ (by omega) (by omega)]

theorem decodeDracoData_index_buffer_witness :
    sampleDecoder [1] = Except.ok sampleMesh ∧
    3 * sampleMesh.num_faces < 2147483648 ∧
    ∃ element : VROGeometryElement,
      (decodeDracoData sampleDecoder [1] sampleMap [] []).2.2 = [] ++ [element] ∧
      element.bytesPerIndex = 4 ∧
      element.data.dataLength = ((4 * (3 * sampleMesh.num_faces) : Nat) : Int) ∧
      element.data.cells.length = 3 * sampleMesh.num_faces ∧
      ∀ i, i < sampleMesh.num_faces → ∀ k : Fin 3,
        element.data.cells[3 * i + k.val]?
          = some (some (toInt32 ((sampleMesh.face i).get k))) ∧
        ((sampleMesh.face i).get k < 2147483648 →
          element.data.cells[3 * i + k.val]?
            = some (some (((sampleMesh.face i).get k : Nat) : Int))) :=
  ⟨rfl, by decide,
    decodeDracoData_index_buffer sampleDecoder [1] sampleMap [] [] sampleMesh rfl (by decide)⟩

/-- C2, counterexample: for the mesh with 715827883 faces the `int` product
`numFaces * 3` wraps to -2147483647, so the appended element has primitive
count -715827882, not F, and its index data length is not 12*F bytes. -/
theorem decodeDracoData_element_overflow :
    hugeMesh.num_faces = 715827883 ∧
    mulInt32 (toInt32 ((715827883 : Nat) : Int)) 3 = -2147483647 ∧
    (decodeDracoData hugeDecoder [] emptyMap [] []).2.2 = [indexElement hugeMesh] ∧
    (indexElement hugeMesh).primitiveCount = -715827882 ∧
    (indexElement hugeMesh).primitiveCount ≠ (hugeMesh.num_faces : Int) ∧
    (indexElement hugeMesh).data.dataLength ≠ ((12 * hugeMesh.num_faces : Nat) : Int) := by
  have hF : hugeMesh.num_faces = 715827883 := by
    simp only [hugeMesh, Mesh.num_faces, List.length_replicate]
  obtain ⟨-, -, hp, hd, -⟩ := indexElement_fields hugeMesh
  rw [hF] at hp hd
  have hcount : Int.tdiv (mulInt32 (toInt32 ((715827883 : Nat) : Int)) 3) 3 = -715827882 := by
    decide
  have hsize : toSizeT ((toSizeT (mulInt32 (toInt32 ((715827883 : Nat) : Int)) 3) * 4 : Nat) : Int)
      = 18446744065119617028 := by decide
  rw [hcount] at hp
  rw [hsize] at hd
  refine ⟨hF, by decide, ?_, hp, ?_, ?_⟩
  · rw [decodeDracoData_shape hugeDecoder [] emptyMap [] [] hugeMesh rfl]
    rfl
  · rw [hp, hF]
    decide
  · rw [hd, hF]
    decide

/-- C2, amended: on a decoded mesh with F faces (F = 0 included) where 3*F is
at most 2^31-1 exactly one element is appended; it is a triangle element with
primitive count F, 4 bytes per index and an index data length of 12*F bytes. -/
theorem decodeDracoData_appends_one_element
    (DecodeMeshFromBuffer : List UInt8 → Except String Mesh)
    (data : List UInt8) (attributeTypeMap : AttributeTypeMap)
    (sourcesOut : List VROGeometrySource) (elementsOut : List VROGeometryElement)
    (mesh : Mesh) (h : DecodeMeshFromBuffer data = Except.ok mesh)
    (hF : 3 * mesh.num_faces < 2147483648) :
    ∃ element : VROGeometryElement,
      (decodeDracoData DecodeMeshFromBuffer data attributeTypeMap sourcesOut elementsOut).2.2
        = elementsOut ++ [element] ∧
      element.primitiveType = VROGeometryPrimitiveType.Triangle ∧
      element.primitiveCount = (mesh.num_faces : Int) ∧
      element.bytesPerIndex = 4 ∧
      element.data.dataLength = ((12 * mesh.num_faces : Nat) : Int) := by
  obtain ⟨ht, hb, -, -, -⟩ := indexElement_fields mesh
  obtain ⟨hp, hd, -, -⟩ := indexElement_of_range mesh hF
  refine ⟨indexElement mesh, ?_, ht, hp, hb, hd⟩
  rw [decodeDracoData_shape DecodeMeshFromBuffer data attributeTypeMap sourcesOut
    elementsOut mesh h]

theorem decodeDracoData_appends_one_element_witness :
    sampleDecoder [7] = Except.ok sampleMesh ∧
    3 * sampleMesh.num_faces < 2147483648 ∧
    ∃ element : VROGeometryElement,
      (decodeDracoData sampleDecoder [7] fullMap [] []).2.2 = [] ++ [element] ∧
      element.primitiveType = VROGeometryPrimitiveType.Triangle ∧
      element.primitiveCount = (sampleMesh.num_faces : Int) ∧
      element.bytesPerIndex = 4 ∧
      element.data.dataLength = ((12 * sampleMesh.num_faces : Nat) : Int) :=
  ⟨rfl, by decide,
    decodeDracoData_appends_one_element sampleDecoder [7] fullMap [] [] sampleMesh rfl
      (by decide)⟩

/-- C3: the name-to-semantic mapping is the six-entry table, every other string
(for instance "TEXCOORD_1" and "position") maps to Invalid, and on a decoded
mesh every source produced for a map entry carries the semantic of the entry
name, which is never Invalid. -/
theorem decodeDracoData_semantic_mapping
    (DecodeMeshFromBuffer : List UInt8 → Except String Mesh)
    (data : List UInt8) (attributeTypeMap : AttributeTypeMap)
    (sourcesOut : List VROGeometrySource) (elementsOut : List VROGeometryElement)
    (mesh : Mesh) (h : DecodeMeshFromBuffer data = Except.ok mesh) :
    semanticOf "POSITION" = VROGeometrySourceSemantic.Vertex ∧
    semanticOf "NORMAL" = VROGeometrySourceSemantic.Normal ∧
    semanticOf "TEXCOORD_0" = VROGeometrySourceSemantic.Texcoord ∧
    semanticOf "COLOR_0" = VROGeometrySourceSemantic.Color ∧
    semanticOf "JOINTS_0" = VROGeometrySourceSemantic.BoneIndices ∧
    semanticOf "WEIGHTS_0" = VROGeometrySourceSemantic.BoneWeights ∧
    semanticOf "TEXCOORD_1" = VROGeometrySourceSemantic.Invalid ∧
    semanticOf "position" = VROGeometrySourceSemantic.Invalid ∧
    (∀ name : String, name ∉ recognisedNames →
      semanticOf name = VROGeometrySourceSemantic.Invalid) ∧
    (decodeDracoData DecodeMeshFromBuffer data attributeTypeMap sourcesOut elementsOut).2.1
      = sourcesOut ++ attributeTypeMap.entries.flatMap (attributeStep mesh []) ∧
    ∀ e ∈ attributeTypeMap.entries, ∀ src ∈ attributeStep mesh [] e,
      src.semantic = semanticOf e.1 ∧ src.semantic ≠ VROGeometrySourceSemantic.Invalid := by
  have hr := decodeDracoData_shape DecodeMeshFromBuffer data
    attributeTypeMap sourcesOut elementsOut mesh h
  refine ⟨by decide, by decide, by decide, by decide, by decide, by decide, by decide,
    by decide, ?_, by rw [hr], ?_⟩
  · intro name hname
    by_contra hne
    exact hname ((semanticOf_ne_invalid_iff name).mp hne)
  · intro e _ src hsrc
    rcases attributeStep_cases mesh e with ⟨-, hnil⟩ | ⟨-, att, src1, -, hone, -, hsem, hinv⟩
    · rw [hnil] at hsrc
      exact absurd hsrc (List.not_mem_nil _)
    · rw [hone, List.mem_singleton] at hsrc
      subst hsrc
      exact ⟨hsem, hinv⟩

theorem decodeDracoData_semantic_mapping_witness :
    sampleDecoder [3] = Except.ok sampleMesh ∧
    (decodeDracoData sampleDecoder [3] sampleMap [] []).2.1
      = [] ++ sampleMap.entries.flatMap (attributeStep sampleMesh []) ∧
    ∀ e ∈ sampleMap.entries, ∀ src ∈ attributeStep sampleMesh [] e,
      src.semantic = semanticOf e.1 ∧ src.semantic ≠ VROGeometrySourceSemantic.Invalid :=
  ⟨rfl, (decodeDracoData_semantic_mapping sampleDecoder [3] sampleMap [] [] sampleMesh
    rfl).2.2.2.2.2.2.2.2.2⟩

/-- C4, at a mesh whose attribute maps points 0, 1, 2 to values 1, 0, 1: the
source built by processAttribute holds value 0 for vertex 0, value 1 for vertex
1 and nothing for vertex 2 (the conversion at value index 2 fails), whereas the
values the attribute associates with the three points are 20.0f, 10.0f, 20.0f. -/
theorem processAttribute_ignores_point_mapping :
    (processAttribute sampleMesh remappedAttribute VROGeometrySourceSemantic.Vertex []).map
      (fun src => src.data.cells) = [[some f10, some f20, none]] ∧
    (List.range sampleMesh.num_points).map (fun p =>
      (remappedAttribute.ConvertValue (remappedAttribute.mapped_index p)
        remappedAttribute.num_components).written) = [[f20], [f10], [f20]] := by
  decide

/-- C5, counterexample: for 536870912 points and one component the `int`
product `vertexCount * componentCount * bytesPerComponent` wraps, so the source
is built with a data length of -2147483648 instead of P*C*4; and for 4294967295
points the cast `(int)mesh->num_points()` gives the vertex count -1. -/
theorem processAttribute_layout_overflow :
    (∃ src : VROGeometrySource,
      processAttribute manyPointsMesh byteAttribute VROGeometrySourceSemantic.Vertex [] = [src] ∧
      src.data.dataLength = -2147483648 ∧
      src.data.dataLength
        ≠ ((manyPointsMesh.num_points * byteAttribute.num_components.val * 4 : Nat) : Int)) ∧
    (∃ src : VROGeometrySource,
      processAttribute maxPointsMesh byteAttribute VROGeometrySourceSemantic.Vertex [] = [src] ∧
      src.vertexCount = -1 ∧
      src.vertexCount ≠ ((maxPointsMesh.num_points : Nat) : Int)) := by
  constructor
  · obtain ⟨src, hsrc, -, -, -, -, -, -, -, hd, -⟩ :=
      processAttribute_shape manyPointsMesh byteAttribute VROGeometrySourceSemantic.Vertex []
    have hval : mulInt32 (mulInt32 (toInt32 ((manyPointsMesh.num_points : Nat) : Int))
        ((byteAttribute.num_components.val : Nat) : Int)) 4 = -2147483648 := by decide
    rw [hval] at hd
    refine ⟨src, by simpa using hsrc, hd, ?_⟩
    rw [hd]
    decide
  · obtain ⟨src, hsrc, -, -, -, -, -, -, hv, -, -⟩ :=
      processAttribute_shape maxPointsMesh byteAttribute VROGeometrySourceSemantic.Vertex []
    have hval : toInt32 ((maxPointsMesh.num_points : Nat) : Int) = -1 := by decide
    rw [hval] at hv
    refine ⟨src, by simpa using hsrc, hv, ?_⟩
    rw [hv]
    decide

/-- C5, amended: for every mesh with P points and every attribute with C
components of any data type and every semantic, where P and 4*P*C are at most
2^31-1, processAttribute appends one source declared as floating point with
vertex count P, C components per vertex, 4 bytes per component, offset 0,
stride 4*C and a buffer of P*C*4 bytes, in which vertex i occupies the bytes
from 4*C*i up to 4*C*(i+1), with no padding. -/
theorem processAttribute_layout (mesh : Mesh) (att : PointAttribute)
    (semantic : VROGeometrySourceSemantic) (sources : List VROGeometrySource)
    (hP : mesh.num_points < 2147483648)
    (hbytes : mesh.num_points * att.num_components.val * 4 < 2147483648) :
    ∃ src : VROGeometrySource,
      processAttribute mesh att semantic sources = sources ++ [src] ∧
      src.floatComponents = true ∧
      src.vertexCount = ((mesh.num_points : Nat) : Int) ∧
      src.componentsPerVertex = ((att.num_components.val : Nat) : Int) ∧
      src.bytesPerComponent = 4 ∧
      src.dataOffset = 0 ∧
      src.dataStride = 4 * ((att.num_components.val : Nat) : Int) ∧
      src.data.dataLength = ((mesh.num_points * att.num_components.val * 4 : Nat) : Int) ∧
      ((4 * src.data.cells.length : Nat) : Int) = src.data.dataLength ∧
      ∀ i : Nat, i < mesh.num_points →
        src.dataOffset + src.dataStride * (i : Int)
          = ((4 * att.num_components.val * i : Nat) : Int) ∧
        src.dataOffset + src.dataStride * (i : Int)
            + src.componentsPerVertex * src.bytesPerComponent
          = ((4 * att.num_components.val * (i + 1) : Nat) : Int) ∧
        ((4 * att.num_components.val * (i + 1) : Nat) : Int) ≤ src.data.dataLength := by
  obtain ⟨src, hsrc, -, hv, hf, hc, hb, ho, hs, hd, hl, -⟩ :=
    processAttribute_source mesh att semantic sources hP hbytes
  refine ⟨src, hsrc, hf, hv, hc, hb, ho, hs, hd, ?_, ?_⟩
  · rw [hl, hd]
    push_cast
    ring
  · intro i hi
    have hle : (i + 1) * att.num_components.val ≤ mesh.num_points * att.num_components.val :=
      Nat.mul_le_mul_right _ (Nat.succ_le_of_lt hi)
    rw [ho, hs, hc, hb, hd]
    refine ⟨by push_cast; ring, by push_cast; ring, ?_⟩
    have hnat : 4 * att.num_components.val * (i + 1)
        ≤ mesh.num_points * att.num_components.val * 4 := by
      calc 4 * att.num_components.val * (i + 1)
          = (i + 1) * att.num_components.val * 4 := by ring
        _ ≤ mesh.num_points * att.num_components.val * 4 := Nat.mul_le_mul_right 4 hle
    exact Int.ofNat_le.mpr hnat

theorem processAttribute_layout_witness :
    sampleMesh.num_points < 2147483648 ∧
    sampleMesh.num_points * byteAttribute.num_components.val * 4 < 2147483648 ∧
    ∃ src : VROGeometrySource,
      processAttribute sampleMesh byteAttribute VROGeometrySourceSemantic.BoneIndices []
        = [] ++ [src] ∧
      src.floatComponents = true ∧
      src.vertexCount = ((sampleMesh.num_points : Nat) : Int) ∧
      src.componentsPerVertex = ((byteAttribute.num_components.val : Nat) : Int) ∧
      src.bytesPerComponent = 4 ∧
      src.dataOffset = 0 ∧
      src.dataStride = 4 * ((byteAttribute.num_components.val : Nat) : Int) ∧
      src.data.dataLength
        = ((sampleMesh.num_points * byteAttribute.num_components.val * 4 : Nat) : Int) ∧
      ((4 * src.data.cells.length : Nat) : Int) = src.data.dataLength ∧
      ∀ i : Nat, i < sampleMesh.num_points →
        src.dataOffset + src.dataStride * (i : Int)
          = ((4 * byteAttribute.num_components.val * i : Nat) : Int) ∧
        src.dataOffset + src.dataStride * (i : Int)
            + src.componentsPerVertex * src.bytesPerComponent
          = ((4 * byteAttribute.num_components.val * (i + 1) : Nat) : Int) ∧
        ((4 * byteAttribute.num_components.val * (i + 1) : Nat) : Int) ≤ src.data.dataLength :=
  ⟨by decide, by decide,
    processAttribute_layout sampleMesh byteAttribute VROGeometrySourceSemantic.BoneIndices []
      (by decide) (by decide)⟩

/-- C6: decodeDracoData returns true exactly when the decoder reports success,
whatever the attribute map and the mesh contain. -/
theorem decodeDracoData_returns_true_iff
    (DecodeMeshFromBuffer : List UInt8 → Except String Mesh)
    (data : List UInt8) (attributeTypeMap : AttributeTypeMap)
    (sourcesOut : List VROGeometrySource) (elementsOut : List VROGeometryElement) :
    (decodeDracoData DecodeMeshFromBuffer data attributeTypeMap sourcesOut elementsOut).1 = true
      ↔ ∃ mesh, DecodeMeshFromBuffer data = Except.ok mesh := by
  cases h : DecodeMeshFromBuffer data with
  | error msg =>
    rw [decodeDracoData_error DecodeMeshFromBuffer data attributeTypeMap sourcesOut
      elementsOut msg h]
    simp
  | ok mesh =>
    have hr := decodeDracoData_shape DecodeMeshFromBuffer data
      attributeTypeMap sourcesOut elementsOut mesh h
    rw [hr]
    simp

theorem decodeDracoData_returns_true_iff_witness :
    ((decodeDracoData sampleDecoder [] sampleMap [] []).1 = true
      ↔ ∃ mesh, sampleDecoder [] = Except.ok mesh) ∧
    (decodeDracoData sampleDecoder [] sampleMap [] []).1 = false ∧
    (decodeDracoData sampleDecoder [2] sampleMap [] []).1 = true :=
  ⟨decodeDracoData_returns_true_iff sampleDecoder [] sampleMap [] [], by decide, by decide⟩

/-- C7: on a decoded mesh the number of appended sources is the number of map
entries with a recognised name and a unique id present in the mesh; the
appended sources are the per-entry contributions in map order, one source for
such an entry and none for any other. -/
theorem decodeDracoData_source_count
    (DecodeMeshFromBuffer : List UInt8 → Except String Mesh)
    (data : List UInt8) (attributeTypeMap : AttributeTypeMap)
    (sourcesOut : List VROGeometrySource) (elementsOut : List VROGeometryElement)
    (mesh : Mesh) (h : DecodeMeshFromBuffer data = Except.ok mesh) :
    ∃ new : List VROGeometrySource,
      (decodeDracoData DecodeMeshFromBuffer data attributeTypeMap sourcesOut elementsOut).2.1
        = sourcesOut ++ new ∧
      new.length = (attributeTypeMap.entries.filter (contributing mesh)).length ∧
      new = attributeTypeMap.entries.flatMap (attributeStep mesh []) ∧
      ∀ e ∈ attributeTypeMap.entries,
        (attributeStep mesh [] e).length = if contributing mesh e = true then 1 else 0 := by
  have hr := decodeDracoData_shape DecodeMeshFromBuffer data
    attributeTypeMap sourcesOut elementsOut mesh h
  refine ⟨_, by rw [hr], ?_, rfl, ?_⟩
  · exact (flatMap_attributeStep mesh attributeTypeMap.entries).length_eq.symm
  · intro e _
    rcases attributeStep_cases mesh e with ⟨hc, hnil⟩ | ⟨hc, att, src, -, hone, -⟩
    · simp [hc, hnil]
    · simp [hc, hone]

theorem decodeDracoData_source_count_witness :
    sampleDecoder [9] = Except.ok sampleMesh ∧
    (∃ new : List VROGeometrySource,
      (decodeDracoData sampleDecoder [9] sampleMap [] []).2.1 = [] ++ new ∧
      new.length = (sampleMap.entries.filter (contributing sampleMesh)).length ∧
      new = sampleMap.entries.flatMap (attributeStep sampleMesh []) ∧
      ∀ e ∈ sampleMap.entries,
        (attributeStep sampleMesh [] e).length
          = if contributing sampleMesh e = true then 1 else 0) ∧
    (sampleMap.entries.filter (contributing sampleMesh)).length = 2 :=
  ⟨rfl, decodeDracoData_source_count sampleDecoder [9] sampleMap [] [] sampleMesh rfl,
    by decide⟩

/-- C8: decodeDracoData only appends: the prior content of both lists is a
prefix of the lists after the call, and when the decoder fails (the call
returns false) both lists are returned as they were. -/
theorem decodeDracoData_append_only
    (DecodeMeshFromBuffer : List UInt8 → Except String Mesh)
    (data : List UInt8) (attributeTypeMap : AttributeTypeMap)
    (sourcesOut : List VROGeometrySource) (elementsOut : List VROGeometryElement) :
    (∃ newSources newElements,
      (decodeDracoData DecodeMeshFromBuffer data attributeTypeMap sourcesOut elementsOut).2.1
        = sourcesOut ++ newSources ∧
      (decodeDracoData DecodeMeshFromBuffer data attributeTypeMap sourcesOut elementsOut).2.2
        = elementsOut ++ newElements) ∧
    ((decodeDracoData DecodeMeshFromBuffer data attributeTypeMap sourcesOut elementsOut).1 = false →
      (decodeDracoData DecodeMeshFromBuffer data attributeTypeMap sourcesOut elementsOut).2.1
        = sourcesOut ∧
      (decodeDracoData DecodeMeshFromBuffer data attributeTypeMap sourcesOut elementsOut).2.2
        = elementsOut) ∧
    (∀ msg, DecodeMeshFromBuffer data = Except.error msg →
      decodeDracoData DecodeMeshFromBuffer data attributeTypeMap sourcesOut elementsOut
        = (false, sourcesOut, elementsOut)) := by
  refine ⟨?_, ?_, fun msg hmsg => decodeDracoData_error DecodeMeshFromBuffer data
    attributeTypeMap sourcesOut elementsOut msg hmsg⟩
  · cases h : DecodeMeshFromBuffer data with
    | error msg =>
      rw [decodeDracoData_error DecodeMeshFromBuffer data attributeTypeMap sourcesOut
        elementsOut msg h]
      exact ⟨[], [], by simp, by simp⟩
    | ok mesh =>
      have hr := decodeDracoData_shape DecodeMeshFromBuffer data
        attributeTypeMap sourcesOut elementsOut mesh h
      rw [hr]
      exact ⟨_, _, rfl, rfl⟩
  · cases h : DecodeMeshFromBuffer data with
    | error msg =>
      rw [decodeDracoData_error DecodeMeshFromBuffer data attributeTypeMap sourcesOut
        elementsOut msg h]
      intro _
      exact ⟨rfl, rfl⟩
    | ok mesh =>
      have hr := decodeDracoData_shape DecodeMeshFromBuffer data
        attributeTypeMap sourcesOut elementsOut mesh h
      rw [hr]
      intro hfalse
      exact absurd hfalse (by simp)

theorem decodeDracoData_append_only_witness :
    (decodeDracoData sampleDecoder [] sampleMap [] []).1 = false ∧
    (decodeDracoData sampleDecoder [] sampleMap [] []).2.1 = [] ∧
    (decodeDracoData sampleDecoder [] sampleMap [] []).2.2 = [] :=
  ⟨by decide, (decodeDracoData_append_only sampleDecoder [] sampleMap [] []).2.1 (by decide)⟩

/-- C9: on a decoded mesh the appended sources come, one each, from a
subsequence of the map entries whose names ascend in the order of the map, so
their semantics always form a subsequence of Color, BoneIndices, Normal,
Vertex, Texcoord, BoneWeights; when all six recognised names are in the map
with unique ids present in the mesh the semantics are exactly that list. -/
theorem decodeDracoData_source_order
    (DecodeMeshFromBuffer : List UInt8 → Except String Mesh)
    (data : List UInt8) (attributeTypeMap : AttributeTypeMap)
    (sourcesOut : List VROGeometrySource) (elementsOut : List VROGeometryElement)
    (mesh : Mesh) (h : DecodeMeshFromBuffer data = Except.ok mesh) :
    ∃ (producing : List (String × Int)) (new : List VROGeometrySource),
      (decodeDracoData DecodeMeshFromBuffer data attributeTypeMap sourcesOut elementsOut).2.1
        = sourcesOut ++ new ∧
      producing.Sublist attributeTypeMap.entries ∧
      producing.Pairwise (fun a b => stringLess a.1 b.1) ∧
      List.Forall₂ (fun e src => attributeStep mesh [] e = [src] ∧ src.semantic = semanticOf e.1)
        producing new ∧
      (new.map (fun src => src.semantic)).Sublist semanticsByName ∧
      ((∀ name ∈ recognisedNames, ∃ id, (name, id) ∈ attributeTypeMap.entries ∧
          idPresent mesh id = true) →
        new.map (fun src => src.semantic) = semanticsByName) := by
  have hr := decodeDracoData_shape DecodeMeshFromBuffer data
    attributeTypeMap sourcesOut elementsOut mesh h
  have hf := flatMap_attributeStep mesh attributeTypeMap.entries
  have hsub : (attributeTypeMap.entries.filter (contributing mesh)).Sublist
      attributeTypeMap.entries := List.filter_sublist _
  have hasc := attributeTypeMap.ascending.sublist hsub
  have hsem := map_semantic_of_forall₂ mesh _ _ hf
  have hnames : ((attributeTypeMap.entries.filter (contributing mesh)).map Prod.fst).Pairwise
      stringLess := List.pairwise_map.mpr hasc
  have hrec : ∀ n ∈ (attributeTypeMap.entries.filter (contributing mesh)).map Prod.fst,
      n ∈ recognisedNames := by
    intro n hn
    obtain ⟨e, he, rfl⟩ := List.mem_map.mp hn
    have hc := (List.mem_filter.mp he).2
    simp only [contributing, Bool.and_eq_true, decide_eq_true_eq] at hc
    exact hc.1
  obtain ⟨hsl, heq⟩ := sorted_names_sublist _ hnames hrec
  have hcanon : (["COLOR_0", "JOINTS_0", "NORMAL", "POSITION", "TEXCOORD_0", "WEIGHTS_0"].map
      semanticOf) = semanticsByName := by decide
  refine ⟨_, _, by rw [hr], hsub, hasc, hf, ?_, ?_⟩
  · rw [hsem, ← hcanon]
    exact hsl.map semanticOf
  · intro hall
    rw [hsem, ← hcanon]
    congr 1
    apply heq
    intro n hn
    obtain ⟨id, hmem, hid⟩ := hall n hn
    refine List.mem_map.mpr ⟨(n, id), List.mem_filter.mpr ⟨hmem, ?_⟩, rfl⟩
    simp only [contributing, Bool.and_eq_true, decide_eq_true_eq]
    exact ⟨hn, hid⟩

theorem decodeDracoData_source_order_witness :
    sampleDecoder [4] = Except.ok sampleMesh ∧
    (∀ name ∈ recognisedNames, ∃ id, (name, id) ∈ fullMap.entries ∧
      idPresent sampleMesh id = true) ∧
    ((decodeDracoData sampleDecoder [4] fullMap [] []).2.1.map (fun src => src.semantic)
      = semanticsByName) := by
  have hall : ∀ name ∈ recognisedNames, ∃ id, (name, id) ∈ fullMap.entries ∧
      idPresent sampleMesh id = true := by
    intro name hname
    simp only [recognisedNames, List.mem_cons, List.mem_singleton, List.not_mem_nil,
      or_false] at hname
    rcases hname with rfl | rfl | rfl | rfl | rfl | rfl
    · exact ⟨0, by decide, by decide⟩
    · exact ⟨0, by decide, by decide⟩
    · exact ⟨1, by decide, by decide⟩
    · exact ⟨0, by decide, by decide⟩
    · exact ⟨1, by decide, by decide⟩
    · exact ⟨1, by decide, by decide⟩
  obtain ⟨producing, new, hr, -, -, -, -, heq⟩ :=
    decodeDracoData_source_order sampleDecoder [4] fullMap [] [] sampleMesh rfl
  refine ⟨rfl, hall, ?_⟩
  rw [hr, List.nil_append]
  exact heq hall


/-- C10, counterexample: for the mesh with 4294967295 points and the
attribute whose conversion fails at index 1, the cast `(int)mesh->num_points()`
gives -1, the loop body never runs, and the appended source has vertex count -1
and an empty buffer; for 536870912 points the `int` byte count wraps to
-2147483648 and the value converted at index 0 is not in the source. -/
theorem processAttribute_failed_conversion_overflow :
    1 < maxPointsMesh.num_points ∧
    1 < manyPointsMesh.num_points ∧
    (gapAttribute.ConvertValue 1 gapAttribute.num_components.val).ok = false ∧
    (gapAttribute.ConvertValue 0 gapAttribute.num_components.val).written = [f10] ∧
    (∃ src : VROGeometrySource,
      processAttribute maxPointsMesh gapAttribute VROGeometrySourceSemantic.Vertex [] = [src] ∧
      src.vertexCount = -1 ∧
      src.vertexCount ≠ ((maxPointsMesh.num_points : Nat) : Int) ∧
      src.data.cells = []) ∧
    (∃ src : VROGeometrySource,
      processAttribute manyPointsMesh gapAttribute VROGeometrySourceSemantic.Vertex [] = [src] ∧
      src.data.dataLength = -2147483648 ∧
      src.data.cells[0]? = none) := by
  refine ⟨by decide, by decide, rfl, rfl, ?_, ?_⟩
  · obtain ⟨src, hsrc, -, -, -, -, -, -, hv, -, hcells⟩ :=
      processAttribute_shape maxPointsMesh gapAttribute VROGeometrySourceSemantic.Vertex []
    have hval : toInt32 ((maxPointsMesh.num_points : Nat) : Int) = -1 := by decide
    rw [hval] at hv hcells
    have hlen : mulInt32 (mulInt32 (-1) ((gapAttribute.num_components.val : Nat) : Int)) 4
        = -4 := by decide
    rw [hlen] at hcells
    refine ⟨src, by simpa using hsrc, hv, ?_, ?_⟩
    · rw [hv]
      decide
    · rw [hcells]
      rfl
  · obtain ⟨src, hsrc, -, -, -, -, -, -, -, hd, hcells⟩ :=
      processAttribute_shape manyPointsMesh gapAttribute VROGeometrySourceSemantic.Vertex []
    have hval : mulInt32 (mulInt32 (toInt32 ((manyPointsMesh.num_points : Nat) : Int))
        ((gapAttribute.num_components.val : Nat) : Int)) 4 = -2147483648 := by decide
    rw [hval] at hd hcells
    refine ⟨src, by simpa using hsrc, hd, ?_⟩
    have hlen : src.data.cells.length = 0 := by
      rw [hcells, foldl_convertStep_length]
      rfl
    rw [List.getElem?_eq_none (by omega)]

/-- C10, amended: for a mesh with P points and an attribute with C components
where P and 4*P*C are at most 2^31-1, when the conversion at some index i
fails processAttribute still appends exactly one source with vertex count P,
every index j (before and after i) holds what its own conversion stored, an
attribute that agrees at an index gives the same components there, and
decodeDracoData on that mesh returns true, with the source of the attribute
among the appended ones for every map entry of recognised name that names
it. -/
theorem processAttribute_failed_conversion
    (DecodeMeshFromBuffer : List UInt8 → Except String Mesh)
    (data : List UInt8) (attributeTypeMap : AttributeTypeMap)
    (sourcesOut : List VROGeometrySource) (elementsOut : List VROGeometryElement)
    (mesh : Mesh) (att : PointAttribute) (semantic : VROGeometrySourceSemantic)
    (sources : List VROGeometrySource) (i : Nat)
    (hdec : DecodeMeshFromBuffer data = Except.ok mesh)
    (hP : mesh.num_points < 2147483648)
    (hbytes : mesh.num_points * att.num_components.val * 4 < 2147483648)
    (_hi : i < mesh.num_points)
    (_hfail : (att.ConvertValue i att.num_components.val).ok = false) :
    (∃ src : VROGeometrySource,
      processAttribute mesh att semantic sources = sources ++ [src] ∧
      src.vertexCount = ((mesh.num_points : Nat) : Int) ∧
      (∀ j, j < mesh.num_points → ∀ c, c < att.num_components.val →
        src.data.cells[j * att.num_components.val + c]?
          = some ((att.ConvertValue j att.num_components.val).written[c]?)) ∧
      (∀ att2 : PointAttribute, att2.num_components = att.num_components →
        ∃ src2 : VROGeometrySource,
          processAttribute mesh att2 semantic sources = sources ++ [src2] ∧
          ∀ j, j < mesh.num_points →
            att2.ConvertValue j att.num_components.val
              = att.ConvertValue j att.num_components.val →
            ∀ c, c < att.num_components.val →
              src2.data.cells[j * att.num_components.val + c]?
                = src.data.cells[j * att.num_components.val + c]?)) ∧
    (decodeDracoData DecodeMeshFromBuffer data attributeTypeMap sourcesOut elementsOut).1
      = true ∧
    (∀ (name : String) (uniqueId : Int), (name, uniqueId) ∈ attributeTypeMap.entries →
      name ∈ recognisedNames →
      mesh.GetAttributeByUniqueId (toUInt32 uniqueId) = some att →
      ∃ src : VROGeometrySource,
        processAttribute mesh att (semanticOf name) [] = [src] ∧
        src ∈ (decodeDracoData DecodeMeshFromBuffer data attributeTypeMap sourcesOut
          elementsOut).2.1) := by
  obtain ⟨src, hsrc, -, hv, -, -, -, -, -, -, -, hcells⟩ :=
    processAttribute_source mesh att semantic sources hP hbytes
  refine ⟨⟨src, hsrc, hv, hcells, ?_⟩, ?_, ?_⟩
  · intro att2 hnum
    obtain ⟨src2, hsrc2, -, -, -, -, -, -, -, -, -, hcells2⟩ :=
      processAttribute_source mesh att2 semantic sources hP (by rw [hnum]; exact hbytes)
    refine ⟨src2, hsrc2, ?_⟩
    intro j hj hagree c hc
    rw [hcells j hj c hc, ← hagree, ← hnum]
    exact hcells2 j hj c (by rw [hnum]; exact hc)
  · exact decodeDracoData_returns_true_of_ok DecodeMeshFromBuffer data attributeTypeMap
      sourcesOut elementsOut mesh hdec
  · intro name uniqueId hentry hname hatt
    obtain ⟨src1, hsrc1, -⟩ := processAttribute_shape mesh att (semanticOf name) []
    have hsrc0 : processAttribute mesh att (semanticOf name) [] = [src1] := by simpa using hsrc1
    refine ⟨src1, hsrc0, ?_⟩
    rw [decodeDracoData_shape DecodeMeshFromBuffer data attributeTypeMap sourcesOut
      elementsOut mesh hdec]
    refine List.mem_append_right _ (List.mem_flatMap.mpr ⟨(name, uniqueId), hentry, ?_⟩)
    have hne : semanticOf name ≠ VROGeometrySourceSemantic.Invalid :=
      (semanticOf_ne_invalid_iff name).mpr hname
    simp only [attributeStep, hatt, bne_iff_ne, ne_eq, hne, not_false_eq_true, if_true, hsrc0,
      List.mem_singleton]

theorem processAttribute_failed_conversion_witness :
    gapDecoder [5] = Except.ok gapMesh ∧
    gapMesh.num_points < 2147483648 ∧
    gapMesh.num_points * gapAttribute.num_components.val * 4 < 2147483648 ∧
    1 < gapMesh.num_points ∧
    (gapAttribute.ConvertValue 1 gapAttribute.num_components.val).ok = false ∧
    ((∃ src : VROGeometrySource,
      processAttribute gapMesh gapAttribute VROGeometrySourceSemantic.Vertex []
        = [] ++ [src] ∧
      src.vertexCount = ((gapMesh.num_points : Nat) : Int) ∧
      (∀ j, j < gapMesh.num_points → ∀ c, c < gapAttribute.num_components.val →
        src.data.cells[j * gapAttribute.num_components.val + c]?
          = some ((gapAttribute.ConvertValue j gapAttribute.num_components.val).written[c]?)) ∧
      (∀ att2 : PointAttribute, att2.num_components = gapAttribute.num_components →
        ∃ src2 : VROGeometrySource,
          processAttribute gapMesh att2 VROGeometrySourceSemantic.Vertex [] = [] ++ [src2] ∧
          ∀ j, j < gapMesh.num_points →
            att2.ConvertValue j gapAttribute.num_components.val
              = gapAttribute.ConvertValue j gapAttribute.num_components.val →
            ∀ c, c < gapAttribute.num_components.val →
              src2.data.cells[j * gapAttribute.num_components.val + c]?
                = src.data.cells[j * gapAttribute.num_components.val + c]?)) ∧
    (decodeDracoData gapDecoder [5] gapMap [] []).1 = true ∧
    (∀ (name : String) (uniqueId : Int), (name, uniqueId) ∈ gapMap.entries →
      name ∈ recognisedNames →
      gapMesh.GetAttributeByUniqueId (toUInt32 uniqueId) = some gapAttribute →
      ∃ src : VROGeometrySource,
        processAttribute gapMesh gapAttribute (semanticOf name) [] = [src] ∧
        src ∈ (decodeDracoData gapDecoder [5] gapMap [] []).2.1)) ∧
    ("POSITION", (2 : Int)) ∈ gapMap.entries ∧
    "POSITION" ∈ recognisedNames ∧
    (gapMesh.GetAttributeByUniqueId (toUInt32 2)).map (fun a => a.unique_id) = some 2 ∧
    (decodeDracoData gapDecoder [5] gapMap [] []).2.1.map
        (fun src => (src.semantic, src.vertexCount, src.data.cells))
      = [(VROGeometrySourceSemantic.Vertex, 3, [some f10, none, some f20])] :=
  ⟨rfl, by decide, by decide, by decide, rfl,
    processAttribute_failed_conversion gapDecoder [5] gapMap [] [] gapMesh gapAttribute
      VROGeometrySourceSemantic.Vertex [] 1 rfl (by decide) (by decide) (by decide) rfl,
    by decide, by decide, by decide, by decide⟩

end VRODracoMeshLoader
